import Mathlib

/-!
Verification of the webview interaction and business-extraction subsystem of
the google-maps-explorer application.

The definitions below are shallow embeddings of the TypeScript source:

* `BusinessInfo`, `sameBusiness`, `captureStep`, `captureEffect` — the
  in-memory session dedup logic of the `currentBusiness` effect in `App`
  (src/unnamed/part_001, lines 68–94).
* `isBusinessTitle`, `checkIfBusinessPage` — the page-classification script
  (src/unnamed/part_000, lines 109–142).
* `matchDigits1` … `extractCoords` — the coordinate scanner, an exact model of
  the JavaScript regex `@(-?\d+\.\d+),(-?\d+\.\d+)` applied with `String.match`
  (leftmost match, greedy digit runs; greediness is deterministic here because
  every `\d+` in the pattern is followed by a non-digit or by the pattern end)
  (src/unnamed/part_000, lines 191–200).
* `runExtractScript`, `handleExtractionResolution` — the extraction script and
  its promise handlers (src/unnamed/part_000, lines 151–236).
* `AppSignals` with guarded setters — React function-component state: a state
  update dispatched on an unmounted component is discarded by the framework,
  modelled by the `mounted` guard inside each setter.
* `mountEffect` / `cleanupEffect` — the listener/interval lifecycle of
  `useWebviewInteraction` (src/unnamed/part_000, lines 13–55).  Function
  identities matter to `removeEventListener`, so each closure evaluated in the
  source is given a distinct numeric identity.
* `patchElem`, `applyWebviewInteractionFixes` — the interaction-fix script
  (src/unnamed/part_000, lines 57–107).
* `handleExportArchiveByTimestampRange`, `getBusinessesFromDateRangeStart`,
  `widenStart`, `widenEnd` — export validation and the date-range query
  bounds (src/unnamed/part_001 lines 105–117, src/src/supabaseClient.ts
  lines 184–198).  JavaScript `Date` parsing is host behaviour and is taken
  as an environment parameter `jsDateParse : String → Option Int` (the parsed
  epoch milliseconds, `none` for an Invalid Date); the JS comparison
  `startDate > endDate` is false whenever either side is NaN (`jsDateGt`).
-/

/-! ### List-level string helpers (used by several scripts) -/

/-- Boolean prefix test on character lists. -/
def isPrefixL : List Char → List Char → Bool
  | [], _ => true
  | _ :: _, [] => false
  | a :: as, b :: bs => a == b && isPrefixL as bs

/-- Find the first occurrence of `pat` in a list, returning the parts before
and after it.  `none` when `pat` does not occur. -/
def splitFirst (pat : List Char) : List Char → Option (List Char × List Char)
  | [] => if pat = [] then some ([], []) else none
  | c :: rest =>
    if isPrefixL pat (c :: rest) then some ([], (c :: rest).drop pat.length)
    else (splitFirst pat rest).map (fun p => (c :: p.1, p.2))

/-- JavaScript `String.prototype.includes` for a string needle. -/
def containsSub (s pat : String) : Bool := (splitFirst pat.toList s.toList).isSome

/-- JavaScript `String.prototype.replace` with a string pattern and empty
replacement: remove the first occurrence of `pat`, if any. -/
def replaceFirst (s pat : String) : String :=
  match splitFirst pat.toList s.toList with
  | some (a, b) => String.mk (a ++ b)
  | none => s

theorem isPrefixL_iff (p l : List Char) : isPrefixL p l = true ↔ ∃ t, l = p ++ t := by
  induction p generalizing l with
  | nil => simp [isPrefixL]
  | cons a as ih =>
    cases l with
    | nil => simp [isPrefixL]
    | cons b bs =>
      simp only [isPrefixL, Bool.and_eq_true, beq_iff_eq, ih, List.cons_append, List.cons.injEq]
      constructor
      · rintro ⟨rfl, t, rfl⟩; exact ⟨t, rfl, rfl⟩
      · rintro ⟨t, rfl, rfl⟩; exact ⟨rfl, t, rfl⟩

theorem splitFirst_sound (pat l a b : List Char) :
    splitFirst pat l = some (a, b) → l = a ++ pat ++ b := by
  induction l generalizing a b with
  | nil =>
    simp only [splitFirst]
    split
    · rename_i hp
      subst hp
      intro h
      simp_all
    · intro h; cases h
  | cons c rest ih =>
    simp only [splitFirst]
    split
    · rename_i hp
      obtain ⟨t, ht⟩ := (isPrefixL_iff pat (c :: rest)).mp hp
      intro h
      obtain ⟨ha, hb⟩ : ([] : List Char) = a ∧ (c :: rest).drop pat.length = b := by
        constructor <;> cases h <;> rfl
      subst ha
      rw [ht, List.drop_left] at hb
      rw [ht, ← hb]
      simp
    · intro h
      cases hs : splitFirst pat rest with
      | none => rw [hs] at h; cases h
      | some p =>
        rw [hs] at h
        obtain ⟨p1, p2⟩ := p
        obtain ⟨ha, hb⟩ : c :: p1 = a ∧ p2 = b := by
          constructor <;> cases h <;> rfl
        subst ha; subst hb
        have := ih p1 p2 hs
        rw [this]
        simp

theorem splitFirst_complete (pat pre post : List Char) :
    (splitFirst pat (pre ++ pat ++ post)).isSome = true := by
  induction pre with
  | nil =>
    simp only [List.nil_append]
    cases pat with
    | nil =>
      cases post with
      | nil => simp [splitFirst]
      | cons c rest => simp [splitFirst, isPrefixL]
    | cons c cs =>
      have hpref : isPrefixL (c :: cs) ((c :: cs) ++ post) = true :=
        (isPrefixL_iff _ _).mpr ⟨post, rfl⟩
      simp only [List.cons_append] at hpref ⊢
      simp [splitFirst, hpref]
  | cons c pre' ih =>
    simp only [List.cons_append, splitFirst]
    split
    · simp
    · cases hs : splitFirst pat (pre' ++ pat ++ post) with
      | none => rw [hs] at ih; simp at ih
      | some p => simp

theorem containsSub_iff (s pat : String) :
    containsSub s pat = true ↔ ∃ pre post, s.toList = pre ++ pat.toList ++ post := by
  unfold containsSub
  constructor
  · intro h
    cases hs : splitFirst pat.toList s.toList with
    | none => rw [hs] at h; simp at h
    | some p =>
      obtain ⟨a, b⟩ := p
      exact ⟨a, b, splitFirst_sound _ _ _ _ hs⟩
  · rintro ⟨pre, post, hdec⟩
    rw [hdec]
    exact splitFirst_complete pat.toList pre post

/-! ### BusinessInfo and in-session dedup (Session Controller)

`App` (src/unnamed/part_001).  The `currentBusiness` effect looks the new
record up in the in-memory `savedBusinesses` list with
`savedBusinesses.find(b => b.name === cur.name && (b.address === cur.address
|| (!b.address && !cur.address)))` and appends exactly when the lookup fails.
`address` is `Option String` (`none` = the field is absent/undefined);
JavaScript `!b.address` is true exactly for an absent or empty address. -/

structure BusinessInfo where
  name : String
  phone : String
  address : Option String
  website : String
  /-- `coordinates` as the numeral strings captured from the URL (their
  conversion to binary floats by `parseFloat` is host arithmetic). -/
  coordinates : Option (String × String)
deriving DecidableEq

/-- JavaScript falsiness of the `address` field: absent or empty string. -/
def addrFalsy : Option String → Bool
  | none => true
  | some s => s == ""

/-- The identity predicate of the dedup lookup, with `a` an element already in
the session list and `cur` the newly captured record. -/
def sameBusiness (a cur : BusinessInfo) : Bool :=
  a.name == cur.name && (a.address == cur.address || (addrFalsy a.address && addrFalsy cur.address))

/-- The synchronous session-list update of the capture effect: append iff the
`find` lookup produced no element with the same identity. -/
def captureStep (cur : BusinessInfo) (session : List BusinessInfo) : List BusinessInfo :=
  if (session.find? (fun b => sameBusiness b cur)).isSome then session
  else session ++ [cur]

/-- No two distinct positions of the session list hold records with the same
identity. -/
def NoDupIdentity (l : List BusinessInfo) : Prop :=
  l.Pairwise (fun a b => sameBusiness a b = false)

/-- The whole capture effect: the session-list update plus the asynchronous
forward to Supabase, whose outcome (`remoteOk`) is only logged.  The second
component records whether a forward was attempted and its outcome. -/
def captureEffect (remoteOk : Bool) (cur : BusinessInfo) (session : List BusinessInfo) :
    List BusinessInfo × Option Bool :=
  if (session.find? (fun b => sameBusiness b cur)).isSome then (session, none)
  else (session ++ [cur], some remoteOk)

theorem find?_isSome_iff {α : Type} (p : α → Bool) (l : List α) :
    (l.find? p).isSome = true ↔ ∃ x ∈ l, p x = true := by
  rw [List.find?_isSome]

theorem addrFalsy_iff (x : Option String) : addrFalsy x = true ↔ (x = none ∨ x = some "") := by
  cases x <;> simp [addrFalsy]

theorem sameBusiness_trans {a b c : BusinessInfo} :
    sameBusiness a b = true → sameBusiness b c = true → sameBusiness a c = true := by
  unfold sameBusiness
  intro h1 h2
  simp only [Bool.and_eq_true, Bool.or_eq_true, beq_iff_eq, addrFalsy_iff] at h1 h2 ⊢
  obtain ⟨hn1, ha1⟩ := h1
  obtain ⟨hn2, ha2⟩ := h2
  refine ⟨hn1.trans hn2, ?_⟩
  rcases ha1 with ha1 | ha1
  · rcases ha2 with ha2 | ha2
    · exact Or.inl (ha1.trans ha2)
    · exact Or.inr ⟨by rw [ha1]; exact ha2.1, ha2.2⟩
  · rcases ha2 with ha2 | ha2
    · exact Or.inr ⟨ha1.1, by rw [← ha2]; exact ha1.2⟩
    · exact Or.inr ⟨ha1.1, ha2.2⟩

/-- A record with name "Cafe X" and an empty (present) address string. -/
def bizA : BusinessInfo :=
  { name := "Cafe X", phone := "", address := some "", website := "", coordinates := none }

/-- A record with name "Cafe X" and an absent address. -/
def bizB : BusinessInfo :=
  { name := "Cafe X", phone := "123", address := none, website := "", coordinates := none }

/-- A record with name "Cafe X" at "1 Main St". -/
def bizC : BusinessInfo :=
  { name := "Cafe X", phone := "", address := some "1 Main St", website := "", coordinates := none }

/-- A record with name "Cafe X" at "2 Side St". -/
def bizD : BusinessInfo :=
  { name := "Cafe X", phone := "", address := some "2 Side St", website := "", coordinates := none }

/-- C1: the Session Controller appends the extracted record to the in-memory
session list iff no record already in the list has the same identity, where
identity holds iff the names match exactly and the addresses match exactly or
are both absent/empty; capturing two records with the same identity appends
exactly once, two records with the same name but differing non-empty addresses
both append, and the session list never contains two records with the same
identity. -/
theorem c1_session_dedup :
    (∀ a cur : BusinessInfo, sameBusiness a cur = true ↔
        (a.name = cur.name ∧
          (a.address = cur.address ∨ (addrFalsy a.address = true ∧ addrFalsy cur.address = true))))
    ∧ (∀ cur session,
        ((∃ b ∈ session, sameBusiness b cur = true) → captureStep cur session = session)
        ∧ ((∀ b ∈ session, sameBusiness b cur = false) → captureStep cur session = session ++ [cur]))
    ∧ (∀ cur1 cur2 session, sameBusiness cur1 cur2 = true →
        captureStep cur2 (captureStep cur1 session) = captureStep cur1 session)
    ∧ (∀ cur1 cur2 : BusinessInfo, ∀ x y : String, cur1.name = cur2.name →
        cur1.address = some x → cur2.address = some y → x ≠ "" → y ≠ "" → x ≠ y →
        captureStep cur2 (captureStep cur1 []) = [cur1, cur2])
    ∧ (∀ cur session, NoDupIdentity session → NoDupIdentity (captureStep cur session)) := by
  refine ⟨?_, ?_, ?_, ?_, ?_⟩
  · intro a cur
    simp [sameBusiness]
  · intro cur session
    constructor
    · rintro ⟨b, hb, hsame⟩
      have h : (session.find? (fun b => sameBusiness b cur)).isSome = true :=
        (find?_isSome_iff _ _).mpr ⟨b, hb, hsame⟩
      simp [captureStep, h]
    · intro hall
      have h : (session.find? (fun b => sameBusiness b cur)).isSome = false := by
        rw [Bool.eq_false_iff]
        intro hsome
        obtain ⟨b, hb, hsame⟩ := (find?_isSome_iff _ _).mp hsome
        rw [hall b hb] at hsame
        cases hsame
      simp [captureStep, h]
  · intro cur1 cur2 session hsame
    by_cases h : (session.find? (fun b => sameBusiness b cur1)).isSome = true
    · obtain ⟨e, he, hse⟩ := (find?_isSome_iff _ _).mp h
      have h2 : (session.find? (fun b => sameBusiness b cur2)).isSome = true :=
        (find?_isSome_iff _ _).mpr ⟨e, he, sameBusiness_trans hse hsame⟩
      simp [captureStep, h, h2]
    · have h1 : (session.find? (fun b => sameBusiness b cur1)).isSome = false :=
        Bool.eq_false_iff.mpr h
      have h2 : ((session ++ [cur1]).find? (fun b => sameBusiness b cur2)).isSome = true :=
        (find?_isSome_iff _ _).mpr ⟨cur1, by simp, hsame⟩
      have hstep1 : captureStep cur1 session = session ++ [cur1] := by
        simp [captureStep, h1]
      rw [hstep1]
      unfold captureStep
      rw [h2]
      simp
  · intro cur1 cur2 x y hname hx hy hx0 hy0 hxy
    have hs : sameBusiness cur1 cur2 = false := by
      rw [Bool.eq_false_iff]
      intro hcon
      simp only [sameBusiness, hx, hy, addrFalsy, Bool.and_eq_true, Bool.or_eq_true,
        beq_iff_eq, Option.some.injEq] at hcon
      rcases hcon.2 with h | h
      · exact hxy h
      · exact hx0 h.1
    have h1 : captureStep cur1 [] = [cur1] := by simp [captureStep]
    rw [h1]
    simp [captureStep, hs]
  · intro cur session hnd
    unfold captureStep
    split
    · exact hnd
    · rename_i h
      have hall : ∀ b ∈ session, sameBusiness b cur = false := by
        intro b hb
        rw [Bool.eq_false_iff]
        intro hsame
        exact h ((find?_isSome_iff _ _).mpr ⟨b, hb, hsame⟩)
      unfold NoDupIdentity at hnd ⊢
      rw [List.pairwise_append]
      refine ⟨hnd, by simp, ?_⟩
      intro a ha b hb
      simp only [List.mem_singleton] at hb
      subst hb
      exact hall a ha

/-- Witness for C1 at concrete records: a both-empty-address duplicate is
dropped, differing non-empty addresses both append, and the resulting list has
no duplicate identities. -/
theorem c1_session_dedup_witness :
    captureStep bizB (captureStep bizA []) = captureStep bizA []
    ∧ captureStep bizD (captureStep bizC []) = [bizC, bizD]
    ∧ NoDupIdentity (captureStep bizD (captureStep bizC [])) := by
  refine ⟨?_, ?_, ?_⟩
  · exact c1_session_dedup.2.2.1 bizA bizB [] (by decide)
  · exact c1_session_dedup.2.2.2.1 bizC bizD "1 Main St" "2 Side St" rfl rfl rfl
      (by decide) (by decide) (by decide)
  · exact c1_session_dedup.2.2.2.2 bizD _ (c1_session_dedup.2.2.2.2 bizC [] List.Pairwise.nil)

/-- C8: a failed asynchronous forward to the remote persistence capability
does not roll back the in-memory session list: the list is identical to the
run in which the same forward succeeds, and a record appended at capture time
stays in the list even when the forward fails. -/
theorem c8_persistence_failure_frame :
    (∀ remoteOk1 remoteOk2 cur session,
        (captureEffect remoteOk1 cur session).1 = (captureEffect remoteOk2 cur session).1)
    ∧ (∀ remoteOk cur session, (captureEffect remoteOk cur session).1 = captureStep cur session)
    ∧ (∀ cur session, (∀ b ∈ session, sameBusiness b cur = false) →
        cur ∈ (captureEffect false cur session).1) := by
  have heq : ∀ (remoteOk : Bool) cur session,
      (captureEffect remoteOk cur session).1 = captureStep cur session := by
    intro remoteOk cur session
    unfold captureEffect captureStep
    split <;> rfl
  refine ⟨fun r1 r2 cur session => ?_, heq, ?_⟩
  · rw [heq, heq]
  · intro cur session hall
    rw [heq]
    have h : (session.find? (fun b => sameBusiness b cur)).isSome = false := by
      rw [Bool.eq_false_iff]
      intro hsome
      obtain ⟨b, hb, hsame⟩ := (find?_isSome_iff _ _).mp hsome
      rw [hall b hb] at hsame
      cases hsame
    simp [captureStep, h]

/-- Witness for C8 at a concrete record: captured into an empty session with a
failing remote forward, the record is in the session list. -/
theorem c8_persistence_failure_frame_witness : bizC ∈ (captureEffect false bizC []).1 :=
  c8_persistence_failure_frame.2.2 bizC [] (fun b hb => absurd hb (List.not_mem_nil b))

/-! ### Page Classifier (src/unnamed/part_000, lines 109–142)

The classification script computes
`isBusinessTitle = title.includes(' - Google Maps') && title !== 'Google Maps'`
and returns `isBusinessTitle && (hasAddressElement || hasBusinessDescription)`,
where the two flags are the presence of the `[data-item-id='address']` DOM
marker and of the `.PYvSYb` business-description marker. -/

/-- The title test of the classification script. -/
def isBusinessTitle (title : String) : Bool :=
  containsSub title " - Google Maps" && !(title == "Google Maps")

/-- The value of `result.isBusinessPage` computed by the classification
script, as a function of the document title and of the two DOM marker
presence flags. -/
def checkIfBusinessPage (title : String) (hasAddressElement hasBusinessDescription : Bool) : Bool :=
  isBusinessTitle title && (hasAddressElement || hasBusinessDescription)

/-- C2: the classifier reports a business page iff the title contains the
fixed suffix marker " - Google Maps", the title is not exactly the bare site
name "Google Maps", and at least one of the two DOM markers is present; in
particular the bare title "Google Maps" is never classified as a business
page, whatever the markers. -/
theorem c2_page_classifier :
    (∀ (title : String) (hasAddressElement hasBusinessDescription : Bool),
      checkIfBusinessPage title hasAddressElement hasBusinessDescription = true ↔
        ((∃ pre post, title.toList = pre ++ (" - Google Maps").toList ++ post)
          ∧ title ≠ "Google Maps"
          ∧ (hasAddressElement = true ∨ hasBusinessDescription = true)))
    ∧ (∀ hasAddressElement hasBusinessDescription,
        checkIfBusinessPage "Google Maps" hasAddressElement hasBusinessDescription = false) := by
  constructor
  · intro t a d
    rw [show checkIfBusinessPage t a d =
      ((containsSub t " - Google Maps" && !(t == "Google Maps")) && (a || d)) from rfl]
    simp only [Bool.and_eq_true, Bool.or_eq_true, Bool.not_eq_true', beq_eq_false_iff_ne,
      containsSub_iff]
    tauto
  · intro a d
    have h : containsSub "Google Maps" " - Google Maps" = false := by decide
    simp [checkIfBusinessPage, isBusinessTitle, h]

/-- Witness for C2: the spec's scenario title classifies true with the
address marker present, and the bare site name classifies false. -/
theorem c2_page_classifier_witness :
    checkIfBusinessPage "Joes Pizza - Google Maps" true false = true
    ∧ checkIfBusinessPage "Google Maps" true true = false := by
  constructor
  · exact (c2_page_classifier.1 "Joes Pizza - Google Maps" true false).mpr
      ⟨⟨"Joes Pizza".toList, [], by decide⟩, by decide, Or.inl rfl⟩
  · exact c2_page_classifier.2 true true

/-! ### Coordinate extraction (src/unnamed/part_000, lines 191–200)

The extraction script runs `url.match(/@(-?\d+\.\d+),(-?\d+\.\d+)/)` and, on a
match, uses the two captured groups as `lat`/`lng`; on no match it leaves
`coordinates = null`.  `String.match` with a non-global regex yields the
leftmost match.  Greedy `\d+` runs are deterministic here: each `\d+` in the
pattern is followed by a non-digit character (`.` or `,`) or by the pattern
end, where the backtracking preference order makes the maximal digit run the
actual match.  The scanner below implements exactly that semantics. -/

/-- Match `\d+` at the head of the list (greedy maximal digit run). -/
def matchDigits1 : List Char → Option (List Char × List Char)
  | [] => none
  | c :: rest =>
    if c.isDigit then some (c :: rest.takeWhile Char.isDigit, rest.dropWhile Char.isDigit)
    else none

/-- Match `\d+\.\d+` at the head of the list. -/
def matchUFloat (l : List Char) : Option (List Char × List Char) :=
  match matchDigits1 l with
  | none => none
  | some (d1, r1) =>
    match r1 with
    | [] => none
    | c :: r2 =>
      if c = '.' then
        match matchDigits1 r2 with
        | none => none
        | some (d2, r3) => some (d1 ++ '.' :: d2, r3)
      else none

/-- Match `-?\d+\.\d+` at the head of the list. -/
def matchSFloat (l : List Char) : Option (List Char × List Char) :=
  match l with
  | [] => none
  | c :: rest =>
    if c = '-' then
      match matchUFloat rest with
      | none => none
      | some (g, r) => some ('-' :: g, r)
    else matchUFloat (c :: rest)

/-- Match the whole pattern `@(-?\d+\.\d+),(-?\d+\.\d+)` at the head of the
list, returning the two captured groups. -/
def matchCoordsAt (l : List Char) : Option (List Char × List Char) :=
  match l with
  | [] => none
  | c :: r0 =>
    if c = '@' then
      match matchSFloat r0 with
      | none => none
      | some (lat, r1) =>
        match r1 with
        | [] => none
        | c2 :: r2 =>
          if c2 = ',' then
            match matchSFloat r2 with
            | none => none
            | some (lng, _) => some (lat, lng)
          else none
    else none

/-- Leftmost match of the pattern anywhere in the list. -/
def findCoords : List Char → Option (List Char × List Char)
  | [] => none
  | c :: rest =>
    match matchCoordsAt (c :: rest) with
    | some p => some p
    | none => findCoords rest

/-- The `coordinates` value of the extraction script: the two captured
numeral strings of the leftmost regex match, `none` when the URL has no
match. -/
def extractCoords (url : String) : Option (String × String) :=
  match findCoords url.toList with
  | none => none
  | some p => some (String.mk p.1, String.mk p.2)

/-- An unsigned decimal float literal: one or more digits, a dot, one or more
digits. -/
def IsUFloat (f : List Char) : Prop :=
  ∃ d1 d2, f = d1 ++ '.' :: d2 ∧ d1 ≠ [] ∧ d2 ≠ [] ∧
    (∀ c ∈ d1, c.isDigit = true) ∧ (∀ c ∈ d2, c.isDigit = true)

/-- A decimal float literal with optional leading minus sign. -/
def IsSFloat (f : List Char) : Prop :=
  IsUFloat f ∨ ∃ g, f = '-' :: g ∧ IsUFloat g

theorem matchDigits1_sound {l d r : List Char} :
    matchDigits1 l = some (d, r) → l = d ++ r ∧ d ≠ [] ∧ ∀ c ∈ d, c.isDigit = true := by
  cases l with
  | nil => intro h; cases h
  | cons c rest =>
    simp only [matchDigits1]
    split
    · rename_i hc
      intro h
      obtain ⟨hd, hr⟩ : c :: rest.takeWhile Char.isDigit = d ∧ rest.dropWhile Char.isDigit = r := by
        constructor <;> cases h <;> rfl
      subst hd; subst hr
      refine ⟨?_, by simp, ?_⟩
      · rw [List.cons_append, List.takeWhile_append_dropWhile]
      · intro x hx
        rcases List.mem_cons.mp hx with rfl | hx
        · exact hc
        · exact List.mem_takeWhile_imp hx
    · intro h; cases h

theorem span_exact {p : Char → Bool} {d r : List Char}
    (hd : ∀ c ∈ d, p c = true) (hr : ∀ c rest, r = c :: rest → p c = false) :
    (d ++ r).takeWhile p = d ∧ (d ++ r).dropWhile p = r := by
  induction d with
  | nil =>
    cases r with
    | nil => simp
    | cons c rest =>
      have hc := hr c rest rfl
      simp [List.takeWhile_cons, List.dropWhile_cons, hc]
  | cons a as ih =>
    have ha := hd a (by simp)
    have ih' := ih (fun c hc => hd c (by simp [hc]))
    simp only [List.cons_append, List.takeWhile_cons, List.dropWhile_cons, ha, if_true]
    simp [ih'.1, ih'.2]

theorem matchDigits1_exact {d r : List Char}
    (hdne : d ≠ []) (hdig : ∀ c ∈ d, c.isDigit = true)
    (hr : ∀ c rest, r = c :: rest → c.isDigit = false) :
    matchDigits1 (d ++ r) = some (d, r) := by
  cases d with
  | nil => exact absurd rfl hdne
  | cons a as =>
    have ha := hdig a (by simp)
    have hspan := span_exact (p := Char.isDigit) (d := as) (r := r)
      (fun c hc => hdig c (by simp [hc])) hr
    simp only [List.cons_append, matchDigits1, ha, if_true]
    rw [hspan.1, hspan.2]

theorem matchDigits1_isSome {c : Char} {rest : List Char} (hc : c.isDigit = true) :
    (matchDigits1 (c :: rest)).isSome = true := by
  simp [matchDigits1, hc]

theorem matchUFloat_sound {l f r : List Char} :
    matchUFloat l = some (f, r) → l = f ++ r ∧ IsUFloat f := by
  intro h
  unfold matchUFloat at h
  cases h1 : matchDigits1 l with
  | none => rw [h1] at h; cases h
  | some p1 =>
    rw [h1] at h
    obtain ⟨d1, r1⟩ := p1
    obtain ⟨hl1, hd1ne, hd1dig⟩ := matchDigits1_sound h1
    cases r1 with
    | nil => cases h
    | cons c r2 =>
      dsimp only at h
      by_cases hc : c = '.'
      · subst hc
        rw [if_pos rfl] at h
        cases h2 : matchDigits1 r2 with
        | none => rw [h2] at h; cases h
        | some p2 =>
          rw [h2] at h
          obtain ⟨d2, r3⟩ := p2
          dsimp only at h
          obtain ⟨hl2, hd2ne, hd2dig⟩ := matchDigits1_sound h2
          obtain ⟨hf, hrr⟩ : d1 ++ '.' :: d2 = f ∧ r3 = r := by
            constructor <;> cases h <;> rfl
          subst hf; subst hrr
          constructor
          · rw [hl1, hl2]; simp
          · exact ⟨d1, d2, rfl, hd1ne, hd2ne, hd1dig, hd2dig⟩
      · rw [if_neg hc] at h
        cases h

theorem matchDigits1_ufloat_head {d1 d2 r : List Char} (hd1ne : d1 ≠ [])
    (hd1dig : ∀ c ∈ d1, c.isDigit = true) :
    matchDigits1 ((d1 ++ '.' :: d2) ++ r) = some (d1, '.' :: (d2 ++ r)) := by
  have h := matchDigits1_exact (d := d1) (r := '.' :: (d2 ++ r)) hd1ne hd1dig
    (by intro c rest hc; injection hc with h1 _; rw [← h1]; decide)
  rw [← h]
  congr 1
  simp

theorem matchUFloat_exact {f r : List Char} (hf : IsUFloat f)
    (hr : ∀ c rest, r = c :: rest → c.isDigit = false) :
    matchUFloat (f ++ r) = some (f, r) := by
  obtain ⟨d1, d2, rfl, hd1ne, hd2ne, hd1dig, hd2dig⟩ := hf
  have h1 := @matchDigits1_ufloat_head d1 d2 r hd1ne hd1dig
  have h2 : matchDigits1 (d2 ++ r) = some (d2, r) := matchDigits1_exact hd2ne hd2dig hr
  unfold matchUFloat
  rw [h1]
  dsimp only
  rw [if_pos rfl, h2]

theorem matchUFloat_isSome {f r : List Char} (hf : IsUFloat f) :
    (matchUFloat (f ++ r)).isSome = true := by
  obtain ⟨d1, d2, rfl, hd1ne, hd2ne, hd1dig, hd2dig⟩ := hf
  have h1 := @matchDigits1_ufloat_head d1 d2 r hd1ne hd1dig
  unfold matchUFloat
  rw [h1]
  dsimp only
  rw [if_pos rfl]
  cases d2 with
  | nil => exact absurd rfl hd2ne
  | cons b bs =>
    have hb := hd2dig b (by simp)
    have h2 : (matchDigits1 (b :: (bs ++ r))).isSome = true := matchDigits1_isSome hb
    cases h2' : matchDigits1 (b :: (bs ++ r)) with
    | none => rw [h2'] at h2; simp at h2
    | some p =>
      rw [List.cons_append, h2']
      obtain ⟨x, y⟩ := p
      rfl

theorem matchSFloat_sound {l f r : List Char} :
    matchSFloat l = some (f, r) → l = f ++ r ∧ IsSFloat f := by
  intro h
  unfold matchSFloat at h
  cases l with
  | nil => cases h
  | cons c rest =>
    dsimp only at h
    by_cases hc : c = '-'
    · subst hc
      rw [if_pos rfl] at h
      cases hu : matchUFloat rest with
      | none => rw [hu] at h; cases h
      | some p =>
        rw [hu] at h
        obtain ⟨g, r'⟩ := p
        dsimp only at h
        obtain ⟨hl, hg⟩ := matchUFloat_sound hu
        obtain ⟨hf, hrr⟩ : '-' :: g = f ∧ r' = r := by
          constructor <;> cases h <;> rfl
        subst hf; subst hrr
        exact ⟨by rw [hl]; rfl, Or.inr ⟨g, rfl, hg⟩⟩
    · rw [if_neg hc] at h
      obtain ⟨hl, hg⟩ := matchUFloat_sound h
      exact ⟨hl, Or.inl hg⟩

theorem isUFloat_head_digit {f : List Char} (hf : IsUFloat f) :
    ∃ a as, f = a :: as ∧ a.isDigit = true := by
  obtain ⟨d1, d2, rfl, hd1ne, _, hd1dig, _⟩ := hf
  cases d1 with
  | nil => exact absurd rfl hd1ne
  | cons a as => exact ⟨a, as ++ '.' :: d2, by simp, hd1dig a (by simp)⟩

theorem matchSFloat_exact {f r : List Char} (hf : IsSFloat f)
    (hr : ∀ c rest, r = c :: rest → c.isDigit = false) :
    matchSFloat (f ++ r) = some (f, r) := by
  rcases hf with hu | ⟨g, rfl, hg⟩
  · obtain ⟨a, as, hfa, ha⟩ := isUFloat_head_digit hu
    have hane : ¬ a = '-' := by
      intro hcon
      rw [hcon] at ha
      simp at ha
    subst hfa
    rw [List.cons_append]
    unfold matchSFloat
    dsimp only
    rw [if_neg hane, ← List.cons_append]
    exact matchUFloat_exact hu hr
  · rw [List.cons_append]
    unfold matchSFloat
    dsimp only
    rw [if_pos rfl, matchUFloat_exact hg hr]

theorem matchSFloat_isSome {f r : List Char} (hf : IsSFloat f) :
    (matchSFloat (f ++ r)).isSome = true := by
  rcases hf with hu | ⟨g, rfl, hg⟩
  · obtain ⟨a, as, hfa, ha⟩ := isUFloat_head_digit hu
    have hane : ¬ a = '-' := by
      intro hcon
      rw [hcon] at ha
      simp at ha
    subst hfa
    rw [List.cons_append]
    unfold matchSFloat
    dsimp only
    rw [if_neg hane, ← List.cons_append]
    exact matchUFloat_isSome hu
  · rw [List.cons_append]
    unfold matchSFloat
    dsimp only
    rw [if_pos rfl]
    have h2 := matchUFloat_isSome (r := r) hg
    cases h2' : matchUFloat (g ++ r) with
    | none => rw [h2'] at h2; simp at h2
    | some p =>
      obtain ⟨x, y⟩ := p
      rfl

theorem matchCoordsAt_sound {l lat lng : List Char} :
    matchCoordsAt l = some (lat, lng) →
      IsSFloat lat ∧ IsSFloat lng ∧ ∃ post, l = '@' :: (lat ++ ',' :: (lng ++ post)) := by
  intro h
  unfold matchCoordsAt at h
  cases l with
  | nil => cases h
  | cons c r0 =>
    dsimp only at h
    by_cases hc : c = '@'
    · subst hc
      rw [if_pos rfl] at h
      cases h1 : matchSFloat r0 with
      | none => rw [h1] at h; cases h
      | some p1 =>
        rw [h1] at h
        obtain ⟨lat', r1⟩ := p1
        dsimp only at h
        obtain ⟨hr0, hlat⟩ := matchSFloat_sound h1
        cases r1 with
        | nil => cases h
        | cons c2 r2 =>
          dsimp only at h
          by_cases hc2 : c2 = ','
          · subst hc2
            rw [if_pos rfl] at h
            cases h2 : matchSFloat r2 with
            | none => rw [h2] at h; cases h
            | some p2 =>
              rw [h2] at h
              obtain ⟨lng', r3⟩ := p2
              dsimp only at h
              obtain ⟨hr2, hlng⟩ := matchSFloat_sound h2
              obtain ⟨hl1, hl2⟩ : lat' = lat ∧ lng' = lng := by
                constructor <;> cases h <;> rfl
              subst hl1; subst hl2
              exact ⟨hlat, hlng, r3, by rw [hr0, hr2]⟩
          · rw [if_neg hc2] at h
            cases h
    · rw [if_neg hc] at h
      cases h

theorem matchCoordsAt_isSome {lat lng post : List Char}
    (hlat : IsSFloat lat) (hlng : IsSFloat lng) :
    (matchCoordsAt ('@' :: (lat ++ ',' :: (lng ++ post)))).isSome = true := by
  have h1 : matchSFloat (lat ++ ',' :: (lng ++ post)) = some (lat, ',' :: (lng ++ post)) :=
    matchSFloat_exact hlat (by intro c rest hc; injection hc with hx _; rw [← hx]; decide)
  have h2 := @matchSFloat_isSome lng post hlng
  unfold matchCoordsAt
  dsimp only
  rw [if_pos rfl, h1]
  dsimp only
  rw [if_pos rfl]
  cases h2' : matchSFloat (lng ++ post) with
  | none => rw [h2'] at h2; simp at h2
  | some p =>
    obtain ⟨x, y⟩ := p
    rfl

theorem findCoords_sound {l lat lng : List Char} :
    findCoords l = some (lat, lng) →
      IsSFloat lat ∧ IsSFloat lng ∧
        ∃ pre post, l = pre ++ '@' :: (lat ++ ',' :: (lng ++ post)) := by
  induction l with
  | nil => intro h; cases h
  | cons c rest ih =>
    intro h
    unfold findCoords at h
    cases hm : matchCoordsAt (c :: rest) with
    | some p =>
      rw [hm] at h
      obtain ⟨a, b⟩ := p
      dsimp only at h
      obtain ⟨ha, hb⟩ : a = lat ∧ b = lng := by
        constructor <;> cases h <;> rfl
      subst ha; subst hb
      obtain ⟨hlat, hlng, post, hdec⟩ := matchCoordsAt_sound hm
      exact ⟨hlat, hlng, [], post, by rw [← hdec]; rfl⟩
    | none =>
      rw [hm] at h
      obtain ⟨hlat, hlng, pre, post, hdec⟩ := ih h
      exact ⟨hlat, hlng, c :: pre, post, by rw [List.cons_append, ← hdec]⟩

theorem findCoords_isSome_of {l pre lat lng post : List Char}
    (hdec : l = pre ++ '@' :: (lat ++ ',' :: (lng ++ post)))
    (hlat : IsSFloat lat) (hlng : IsSFloat lng) :
    (findCoords l).isSome = true := by
  subst hdec
  induction pre with
  | nil =>
    rw [List.nil_append]
    unfold findCoords
    have hm2 := @matchCoordsAt_isSome lat lng post hlat hlng
    cases hm : matchCoordsAt ('@' :: (lat ++ ',' :: (lng ++ post))) with
    | none => rw [hm] at hm2; simp at hm2
    | some p => rfl
  | cons c pre' ih =>
    rw [List.cons_append]
    unfold findCoords
    cases hm : matchCoordsAt (c :: (pre' ++ '@' :: (lat ++ ',' :: (lng ++ post)))) with
    | none => exact ih
    | some p => rfl

/-- C3: extraction yields coordinates exactly when the page URL contains a
substring `@<lat>,<lng>` whose components are decimal floats with optional
sign (first conjunct, both directions: no such substring means `none`, never
a fabricated value); and whenever coordinates are returned, the two values
are themselves well-formed signed decimal floats read verbatim from such a
substring of the URL — never a partial or garbage value. -/
theorem c3_coordinate_extraction (url : String) :
    ((extractCoords url).isSome = true ↔
      ∃ pre lat lng post, url.toList = pre ++ '@' :: (lat ++ ',' :: (lng ++ post))
        ∧ IsSFloat lat ∧ IsSFloat lng)
    ∧ (∀ latS lngS, extractCoords url = some (latS, lngS) →
        IsSFloat latS.toList ∧ IsSFloat lngS.toList ∧
          ∃ pre post, url.toList = pre ++ '@' :: (latS.toList ++ ',' :: (lngS.toList ++ post))) := by
  constructor
  · constructor
    · intro h
      cases hf : findCoords url.toList with
      | none => rw [extractCoords, hf] at h; cases h
      | some p =>
        obtain ⟨a, b⟩ := p
        obtain ⟨hlat, hlng, pre, post, hdec⟩ := findCoords_sound hf
        exact ⟨pre, a, b, post, hdec, hlat, hlng⟩
    · rintro ⟨pre, lat, lng, post, hdec, hlat, hlng⟩
      have hs := findCoords_isSome_of hdec hlat hlng
      cases hf : findCoords url.toList with
      | none => rw [hf] at hs; cases hs
      | some p =>
        obtain ⟨a, b⟩ := p
        rw [extractCoords, hf]
        rfl
  · intro latS lngS h
    cases hf : findCoords url.toList with
    | none => rw [extractCoords, hf] at h; cases h
    | some p =>
      obtain ⟨a, b⟩ := p
      rw [extractCoords, hf] at h
      dsimp only at h
      obtain ⟨ha, hb⟩ : String.mk a = latS ∧ String.mk b = lngS := by
        constructor <;> cases h <;> rfl
      have ha' : latS.toList = a := by rw [← ha]; rfl
      have hb' : lngS.toList = b := by rw [← hb]; rfl
      obtain ⟨hlat, hlng, pre, post, hdec⟩ := findCoords_sound hf
      rw [ha', hb']
      exact ⟨hlat, hlng, pre, post, hdec⟩

/-- Witness for C3: the spec's scenario URL containing `@40.7128,-74.0060`
extracts exactly those two coordinate components, which the theorem certifies
as well-formed floats read from the URL. -/
theorem c3_coordinate_extraction_witness :
    extractCoords "https://www.google.com/maps/place/X/@40.7128,-74.0060,12z" =
      some ("40.7128", "-74.0060")
    ∧ IsSFloat ("40.7128").toList ∧ IsSFloat ("-74.0060").toList
    ∧ ∃ pre post,
        ("https://www.google.com/maps/place/X/@40.7128,-74.0060,12z").toList =
          pre ++ '@' :: (("40.7128").toList ++ ',' :: (("-74.0060").toList ++ post)) := by
  have hx : extractCoords "https://www.google.com/maps/place/X/@40.7128,-74.0060,12z" =
      some ("40.7128", "-74.0060") := by decide
  have h := (c3_coordinate_extraction "https://www.google.com/maps/place/X/@40.7128,-74.0060,12z").2
    "40.7128" "-74.0060" hx
  exact ⟨hx, h.1, h.2.1, h.2.2⟩

/-! ### Extraction script and promise handlers (src/unnamed/part_000, 151–236)

The injected extraction script wraps all field derivations in one
`try { ... return {name, phone, address, website, coordinates} }
catch (error) { return {error: error.message} }`.  Each DOM read can throw, so
the page is modelled as a record of fallible reads; the script returns either
the fully assembled record or the error object — there is no third shape.  The
promise `then` handler checks `hasError` first (`'error' in obj`) and
`isBusinessInfo` second, so a failure value always takes the failure branch. -/

/-- `title.replace(' - Google Maps', '')` of the extraction script. -/
def nameFromTitle (title : String) : String := replaceFirst title " - Google Maps"

/-- The value delivered by the extraction script: an error object or a full
record.  These are distinct constructors, exactly as `{error}` and a record
are distinguished by the `hasError` guard of the caller. -/
inductive ExtractOutcome where
  | failure (msg : String)
  | record (b : BusinessInfo)
deriving DecidableEq

/-- The DOM as seen by one run of the extraction script: each field
derivation either yields a string or throws. -/
structure PageDom where
  titleRead : Except String String
  phoneRead : Except String String
  addressRead : Except String String
  websiteRead : Except String String
  urlRead : Except String String

/-- Whether a single field derivation throws. -/
def readThrows : Except String String → Bool
  | .error _ => true
  | .ok _ => false

/-- Whether any field derivation of the run throws. -/
def domThrows (d : PageDom) : Bool :=
  readThrows d.titleRead || readThrows d.phoneRead || readThrows d.addressRead ||
    readThrows d.websiteRead || readThrows d.urlRead

/-- The extraction script body: derive the fields in source order inside the
`try`; the first throw is caught and returned as the error object. -/
def runExtractScript (d : PageDom) : ExtractOutcome :=
  match d.titleRead with
  | .error m => .failure m
  | .ok title =>
    match d.phoneRead with
    | .error m => .failure m
    | .ok phone =>
      match d.addressRead with
      | .error m => .failure m
      | .ok address =>
        match d.websiteRead with
        | .error m => .failure m
        | .ok website =>
          match d.urlRead with
          | .error m => .failure m
          | .ok url =>
            .record { name := nameFromTitle title, phone := phone, address := some address,
                      website := website, coordinates := extractCoords url }

/-! ### React component state and teardown (src/unnamed/part_000, 129–141 and
215–236)

The promise handlers call the React state setters without any liveness check.
React discards a state update dispatched on an unmounted function component:
this framework behaviour is modelled by the `mounted` guard inside each
setter.  The session list lives in `App` and is only ever changed by the
capture effect, which runs on a render; none of the handlers touches it. -/

structure AppSignals where
  mounted : Bool
  isBusinessPage : Bool
  currentBusiness : Option BusinessInfo
  savedBusinesses : List BusinessInfo
deriving DecidableEq

/-- `setIsBusinessPage`: a no-op once the component is unmounted. -/
def setIsBusinessPageS (v : Bool) (s : AppSignals) : AppSignals :=
  if s.mounted then { s with isBusinessPage := v } else s

/-- `setCurrentBusiness`: a no-op once the component is unmounted. -/
def setCurrentBusinessS (v : Option BusinessInfo) (s : AppSignals) : AppSignals :=
  if s.mounted then { s with currentBusiness := v } else s

/-- The `then` handler of the classification call (lines 130–137):
`setIsBusinessPage(!!result.isBusinessPage); if (!result.isBusinessPage)
setCurrentBusiness(null)`. -/
def handleClassificationResolution (isBiz : Bool) (s : AppSignals) : AppSignals :=
  let s1 := setIsBusinessPageS isBiz s
  if isBiz then s1 else setCurrentBusinessS none s1

/-- The `catch` handler of the classification call (lines 138–141). -/
def handleClassificationRejection (s : AppSignals) : AppSignals :=
  setCurrentBusinessS none (setIsBusinessPageS false s)

/-- The `then` handler of the extraction call (lines 216–231): the `hasError`
guard matches exactly the failure value and clears the signal; the
`isBusinessInfo` guard matches exactly a record and stores it. -/
def handleExtractionResolution (r : ExtractOutcome) (s : AppSignals) : AppSignals :=
  match r with
  | .failure _ => setCurrentBusinessS none s
  | .record b => setCurrentBusinessS (some b) s

/-- The `catch` handler of the extraction call (lines 233–236). -/
def handleExtractionRejection (s : AppSignals) : AppSignals :=
  setCurrentBusinessS none s

/-- C5: a classification or extraction result that resolves (or rejects)
after the component is unmounted changes nothing: neither the
`isBusinessPage` signal, nor the current-business signal, nor the session
list — the whole state is returned unchanged, so the late result is dropped,
not applied. -/
theorem c5_teardown_drops_late_results (s : AppSignals) (h : s.mounted = false) :
    (∀ isBiz, handleClassificationResolution isBiz s = s)
    ∧ handleClassificationRejection s = s
    ∧ (∀ r, handleExtractionResolution r s = s)
    ∧ handleExtractionRejection s = s := by
  have hset1 : ∀ v, setIsBusinessPageS v s = s := by
    intro v; simp [setIsBusinessPageS, h]
  have hset2 : ∀ v, setCurrentBusinessS v s = s := by
    intro v; simp [setCurrentBusinessS, h]
  refine ⟨?_, ?_, ?_, ?_⟩
  · intro isBiz
    cases isBiz <;> simp [handleClassificationResolution, hset1, hset2]
  · simp [handleClassificationRejection, hset1, hset2]
  · intro r
    cases r <;> simp [handleExtractionResolution, hset2]
  · simp [handleExtractionRejection, hset2]

/-- An unmounted component state holding arbitrary previous values. -/
def unmountedSignals : AppSignals :=
  { mounted := false, isBusinessPage := true, currentBusiness := some bizC,
    savedBusinesses := [bizC] }

/-- Witness for C5 at a concrete unmounted state: a late false classification
and a late extraction failure both leave the state untouched. -/
theorem c5_teardown_drops_late_results_witness :
    handleClassificationResolution false unmountedSignals = unmountedSignals
    ∧ handleExtractionResolution (ExtractOutcome.failure "late") unmountedSignals =
        unmountedSignals := by
  have h := c5_teardown_drops_late_results unmountedSignals rfl
  exact ⟨h.1 false, h.2.2.1 _⟩

/-- C7: whenever some field derivation of an extraction run throws, the
script returns a typed failure value, which is distinct from every record
(including a successful-but-empty one); on that failure the mounted caller
clears the current-business signal; and every record the script does emit is
assembled from the complete, successful set of field reads — never from a
partial subset. -/
theorem c7_extraction_failure (d : PageDom) :
    (domThrows d = true → ∃ m, runExtractScript d = ExtractOutcome.failure m)
    ∧ (∀ m b, ExtractOutcome.failure m ≠ ExtractOutcome.record b)
    ∧ (∀ m s, s.mounted = true → runExtractScript d = ExtractOutcome.failure m →
        (handleExtractionResolution (runExtractScript d) s).currentBusiness = none)
    ∧ (∀ b, runExtractScript d = ExtractOutcome.record b →
        ∃ t ph a w u, d.titleRead = Except.ok t ∧ d.phoneRead = Except.ok ph ∧
          d.addressRead = Except.ok a ∧ d.websiteRead = Except.ok w ∧
          d.urlRead = Except.ok u ∧
          b = { name := nameFromTitle t, phone := ph, address := some a, website := w,
                coordinates := extractCoords u }) := by
  obtain ⟨t, p, a, w, u⟩ := d
  refine ⟨?_, ?_, ?_, ?_⟩
  · intro h
    cases t with
    | error m => exact ⟨m, rfl⟩
    | ok tv =>
      cases p with
      | error m => exact ⟨m, rfl⟩
      | ok pv =>
        cases a with
        | error m => exact ⟨m, rfl⟩
        | ok av =>
          cases w with
          | error m => exact ⟨m, rfl⟩
          | ok wv =>
            cases u with
            | error m => exact ⟨m, rfl⟩
            | ok uv => simp [domThrows, readThrows] at h
  · intro m b hcon
    cases hcon
  · intro m s hm hrun
    rw [hrun]
    simp [handleExtractionResolution, setCurrentBusinessS, hm]
  · cases t with
    | error m => intro b hcon; cases hcon
    | ok tv =>
      cases p with
      | error m => intro b hcon; cases hcon
      | ok pv =>
        cases a with
        | error m => intro b hcon; cases hcon
        | ok av =>
          cases w with
          | error m => intro b hcon; cases hcon
          | ok wv =>
            cases u with
            | error m => intro b hcon; cases hcon
            | ok uv =>
              intro b hcon
              refine ⟨tv, pv, av, wv, uv, rfl, rfl, rfl, rfl, rfl, ?_⟩
              cases hcon
              rfl

/-- A DOM run whose address derivation throws. -/
def throwingDom : PageDom :=
  { titleRead := Except.ok "Joes Pizza - Google Maps", phoneRead := Except.ok "",
    addressRead := Except.error "boom", websiteRead := Except.ok "",
    urlRead := Except.ok "https://www.google.com/maps" }

/-- A mounted component state holding a previous business. -/
def mountedSignals : AppSignals :=
  { mounted := true, isBusinessPage := true, currentBusiness := some bizC,
    savedBusinesses := [] }

/-- Witness for C7 at a concrete throwing run: the script yields a failure and
the mounted caller ends with a cleared current-business signal. -/
theorem c7_extraction_failure_witness :
    (∃ m, runExtractScript throwingDom = ExtractOutcome.failure m)
    ∧ (handleExtractionResolution (runExtractScript throwingDom) mountedSignals).currentBusiness
        = none := by
  have h := c7_extraction_failure throwingDom
  exact ⟨h.1 (by decide), h.2.2.1 "boom" mountedSignals rfl (by decide)⟩

/-! ### Navigation Monitor lifecycle (src/unnamed/part_000, lines 13–55)

The mount effect registers five listeners and starts the 1-second poll; the
cleanup removes listeners and clears the interval.  DOM `removeEventListener`
only removes a registration whose function is the *same* object as the one
passed at `addEventListener` time; every JavaScript function expression
evaluates to a fresh object.  Each closure evaluated in the source therefore
carries a distinct numeric identity below: the inline arrow
`() => setIsLoading(true)` passed at mount (id 0) and the syntactically
identical but newly evaluated arrow passed in the cleanup (id 4) are
different functions, while `handleLoad`, `handleNavigationComplete` and
`applyWebviewInteractionFixes` are single closures shared by both phases. -/

structure MonitorState where
  listeners : List (String × Nat)
  intervalActive : Bool
deriving DecidableEq

/-- `webview.addEventListener(ev, fn)`: register the pair. -/
def addEventListenerM (ev : String) (fnId : Nat) (s : MonitorState) : MonitorState :=
  { s with listeners := s.listeners ++ [(ev, fnId)] }

/-- `webview.removeEventListener(ev, fn)`: deregister pairs with the same
event name and the same function object. -/
def removeEventListenerM (ev : String) (fnId : Nat) (s : MonitorState) : MonitorState :=
  { s with listeners := s.listeners.filter (fun q => !(q.1 == ev && q.2 == fnId)) }

/-- Identity of the arrow `() => setIsLoading(true)` evaluated at mount. -/
def startLoadingArrowMountId : Nat := 0

/-- Identity of the `handleLoad` closure. -/
def handleLoadId : Nat := 1

/-- Identity of the `handleNavigationComplete` closure. -/
def handleNavigationCompleteId : Nat := 2

/-- Identity of the `applyWebviewInteractionFixes` closure. -/
def applyFixesId : Nat := 3

/-- Identity of the fresh arrow `() => setIsLoading(true)` evaluated inside
the cleanup function. -/
def startLoadingArrowCleanupId : Nat := 4

/-- The listener registrations and `setInterval` of the effect body, in
source order (lines 38–45). -/
def mountEffect (s : MonitorState) : MonitorState :=
  { (addEventListenerM "dom-ready" applyFixesId
      (addEventListenerM "did-navigate-in-page" handleNavigationCompleteId
        (addEventListenerM "did-navigate" handleNavigationCompleteId
          (addEventListenerM "did-finish-load" handleLoadId
            (addEventListenerM "did-start-loading" startLoadingArrowMountId s)))))
    with intervalActive := true }

/-- The cleanup returned by the effect (lines 47–54): five
`removeEventListener` calls — the first passing a *newly evaluated* arrow —
then `clearInterval`. -/
def cleanupEffect (s : MonitorState) : MonitorState :=
  { (removeEventListenerM "dom-ready" applyFixesId
      (removeEventListenerM "did-navigate-in-page" handleNavigationCompleteId
        (removeEventListenerM "did-navigate" handleNavigationCompleteId
          (removeEventListenerM "did-finish-load" handleLoadId
            (removeEventListenerM "did-start-loading" startLoadingArrowCleanupId s)))))
    with intervalActive := false }

/-- C6 fails on the code: after mount followed by teardown, the polling timer
is cancelled and four of the five subscriptions are deregistered, but the
`did-start-loading` listener added at mount is still registered — the cleanup
passes a fresh arrow function to `removeEventListener`, which therefore
matches nothing.  This theorem evaluates the model at the failing input
(mount, then unmount). -/
theorem c6_teardown_leaves_loadstart_listener :
    cleanupEffect (mountEffect { listeners := [], intervalActive := false }) =
      { listeners := [("did-start-loading", startLoadingArrowMountId)],
        intervalActive := false } := by
  decide

/-! ### Interaction Patcher (src/unnamed/part_000, lines 57–107)

The injected script sets `document.body.style.cursor = 'auto'` and, for each
element matched by the four fixed selector groups, forces fixed style values
in script order: scene widgets get `pointerEvents = 'auto'`,
`touchAction = 'manipulation'`; zoom controls `pointerEvents = 'auto'`,
`cursor = 'pointer'`; the search box `pointerEvents = 'auto'`,
`cursor = 'text'`; info cards `pointerEvents = 'auto'`, `cursor = 'auto'`.
An element is modelled by which selector groups it matches (fixed properties
of the element) plus its mutable inline style. -/

structure ElemStyle where
  pointerEvents : String
  cursor : String
  touchAction : String
deriving DecidableEq

structure MapElem where
  isSceneWidget : Bool
  isZoomControl : Bool
  isSearchBox : Bool
  isInfoCard : Bool
  style : ElemStyle
deriving DecidableEq

/-- The style assignments applied to one element, in script order. -/
def patchElem (e : MapElem) : MapElem :=
  let e1 := if e.isSceneWidget then
      { e with style := { e.style with pointerEvents := "auto", touchAction := "manipulation" } }
    else e
  let e2 := if e1.isZoomControl then
      { e1 with style := { e1.style with pointerEvents := "auto", cursor := "pointer" } }
    else e1
  let e3 := if e2.isSearchBox then
      { e2 with style := { e2.style with pointerEvents := "auto", cursor := "text" } }
    else e2
  if e3.isInfoCard then
    { e3 with style := { e3.style with pointerEvents := "auto", cursor := "auto" } }
  else e3

structure MapDoc where
  bodyCursor : String
  elems : List MapElem
deriving DecidableEq

/-- One run of the interaction-fix script over the whole document. -/
def applyWebviewInteractionFixes (d : MapDoc) : MapDoc :=
  { bodyCursor := "auto", elems := d.elems.map patchElem }

theorem patchElem_idem (e : MapElem) : patchElem (patchElem e) = patchElem e := by
  obtain ⟨s, z, b, c, st⟩ := e
  cases s <;> cases z <;> cases b <;> cases c <;> rfl

/-- C9: applying the Interaction Patcher twice produces the same document
style state as applying it once (idempotence, no cumulative effect), and an
element matched by none of the fixed selectors is left unchanged. -/
theorem c9_patcher_idempotent :
    (∀ d : MapDoc, applyWebviewInteractionFixes (applyWebviewInteractionFixes d) =
        applyWebviewInteractionFixes d)
    ∧ (∀ e : MapElem, e.isSceneWidget = false → e.isZoomControl = false →
        e.isSearchBox = false → e.isInfoCard = false → patchElem e = e) := by
  constructor
  · intro d
    have hmap : ∀ l : List MapElem, (l.map patchElem).map patchElem = l.map patchElem := by
      intro l
      induction l with
      | nil => rfl
      | cons x xs ih => simp [patchElem_idem, ih]
    simp [applyWebviewInteractionFixes, hmap]
  · intro e h1 h2 h3 h4
    obtain ⟨s, z, b, c, st⟩ := e
    dsimp only at h1 h2 h3 h4
    subst h1; subst h2; subst h3; subst h4
    rfl

/-- An element matched by no selector group, with styles the script never
writes. -/
def plainElem : MapElem :=
  { isSceneWidget := false, isZoomControl := false, isSearchBox := false, isInfoCard := false,
    style := { pointerEvents := "none", cursor := "default", touchAction := "none" } }

/-- Witness for C9 at a concrete document: double application equals single
application, and the unmatched element is untouched. -/
theorem c9_patcher_idempotent_witness :
    applyWebviewInteractionFixes
        (applyWebviewInteractionFixes { bodyCursor := "default", elems := [plainElem] }) =
      applyWebviewInteractionFixes { bodyCursor := "default", elems := [plainElem] }
    ∧ patchElem plainElem = plainElem :=
  ⟨c9_patcher_idempotent.1 { bodyCursor := "default", elems := [plainElem] },
    c9_patcher_idempotent.2 plainElem rfl rfl rfl rfl⟩

/-! ### Export validation and the date-range query
(src/unnamed/part_001, lines 105–117; src/src/supabaseClient.ts, lines 184–198)

`handleExportArchiveByTimestampRange` checks only two things before calling
`getBusinessesFromDateRange`: that neither input string is empty (JavaScript
falsiness of a string), and that `new Date(start) > new Date(end)`.  `Date`
parsing is host behaviour, modelled by an environment parameter
`jsDateParse : String → Option Int` giving the epoch milliseconds or `none`
for an Invalid Date (NaN time value); in JavaScript every comparison
involving NaN is false, so the `>` check passes whenever either input is
unparseable (`jsDateGt`).  Inside `getBusinessesFromDateRange`, the inputs
are widened (`widenStart`/`widenEnd`) and converted with
`new Date(...).toISOString()`, which throws a RangeError on an Invalid Date —
caught by the surrounding `try`, so no network query is issued; the caller
then shows a fetch-failure message, not a validation message. -/

/-- `timestamp.includes('.')`. -/
def hasDotChar (s : String) : Bool := s.toList.any (fun c => c == '.')

/-- `start.includes('.') ? start : start + ':00.000Z'`. -/
def widenStart (s : String) : String := if hasDotChar s then s else s ++ ":00.000Z"

/-- `end.includes('.') ? end : end + ':59.999Z'`. -/
def widenEnd (s : String) : String := if hasDotChar s then s else s ++ ":59.999Z"

/-- JavaScript `>` on two `Date` time values: false whenever either is NaN. -/
def jsDateGt : Option Int → Option Int → Bool
  | some x, some y => decide (x > y)
  | _, _ => false

/-- How far the export handler gets before leaving validation. -/
inductive ExportValidation where
  /-- `alert('Please select a start and end date/time …')` and return. -/
  | emptyInputRejection
  /-- `alert('Start date/time cannot be after end date/time.')` and return. -/
  | rangeRejection
  /-- Validation passed; `getBusinessesFromDateRange` is invoked. -/
  | proceedToFetch
deriving DecidableEq

/-- The validation prefix of `handleExportArchiveByTimestampRange`. -/
def handleExportArchiveByTimestampRange (jsDateParse : String → Option Int)
    (startTs endTs : String) : ExportValidation :=
  if startTs = "" ∨ endTs = "" then .emptyInputRejection
  else if jsDateGt (jsDateParse startTs) (jsDateParse endTs) then .rangeRejection
  else .proceedToFetch

/-- How far `getBusinessesFromDateRange` gets before the network query. -/
inductive RangeQueryStep where
  /-- `toISOString()` threw on an Invalid Date; caught, returned as
  `{success: false}` with no query issued. -/
  | conversionFailure
  /-- The `gte`/`lte` query is issued with these converted bounds. -/
  | queryIssued (gteArg lteArg : Int)
deriving DecidableEq

/-- The timestamp-conversion prefix of `getBusinessesFromDateRange`. -/
def getBusinessesFromDateRangeStart (jsDateParse : String → Option Int)
    (startTs endTs : String) : RangeQueryStep :=
  match jsDateParse (widenStart startTs) with
  | none => .conversionFailure
  | some x =>
    match jsDateParse (widenEnd endTs) with
    | none => .conversionFailure
    | some y => .queryIssued x y

/-- A concrete fragment of the host `Date` parser: one well-formed
datetime-local value parses; the string "garbage" and its widened form are
Invalid Dates. -/
def jsDateParseEx : String → Option Int :=
  fun s => if s = "2024-01-02T00:00" then some 1704153600000 else none

/-- C4 counterexample: the start input "garbage" is non-empty and not
parseable as a date-time, yet the handler performs no validation rejection —
`new Date('garbage') > new Date(end)` is a NaN comparison, hence false — and
proceeds into the fetch path, contradicting the claim that every unparseable
input yields a validation rejection before any I/O. -/
theorem c4_export_validation_counterexample :
    handleExportArchiveByTimestampRange jsDateParseEx "garbage" "2024-01-02T00:00" =
      ExportValidation.proceedToFetch
    ∧ ExportValidation.proceedToFetch ≠ ExportValidation.emptyInputRejection
    ∧ ExportValidation.proceedToFetch ≠ ExportValidation.rangeRejection :=
  ⟨by decide, by decide, by decide⟩

/-- C4 (amended): empty inputs are rejected with a validation message before
any store call; inputs that both parse, with start after end, are likewise
rejected before any store call; but a non-empty unparseable input is not
caught by validation — the handler proceeds to the range-query function,
whose timestamp conversion fails before any network query is built,
surfacing as a fetch error rather than a validation rejection. -/
theorem c4_export_validation_amended (jsDateParse : String → Option Int)
    (startTs endTs : String) :
    ((startTs = "" ∨ endTs = "") →
      handleExportArchiveByTimestampRange jsDateParse startTs endTs =
        ExportValidation.emptyInputRejection)
    ∧ (∀ x y, startTs ≠ "" → endTs ≠ "" → jsDateParse startTs = some x →
        jsDateParse endTs = some y → x > y →
        handleExportArchiveByTimestampRange jsDateParse startTs endTs =
          ExportValidation.rangeRejection)
    ∧ (startTs ≠ "" → endTs ≠ "" →
        (jsDateParse startTs = none ∨ jsDateParse endTs = none) →
        handleExportArchiveByTimestampRange jsDateParse startTs endTs =
          ExportValidation.proceedToFetch)
    ∧ ((jsDateParse (widenStart startTs) = none ∨ jsDateParse (widenEnd endTs) = none) →
        getBusinessesFromDateRangeStart jsDateParse startTs endTs =
          RangeQueryStep.conversionFailure) := by
  refine ⟨?_, ?_, ?_, ?_⟩
  · intro h
    simp [handleExportArchiveByTimestampRange, h]
  · intro x y hs he hx hy hgt
    have hcond : ¬ (startTs = "" ∨ endTs = "") := by
      rintro (h | h) <;> [exact hs h; exact he h]
    simp [handleExportArchiveByTimestampRange, hcond, jsDateGt, hx, hy, hgt]
  · intro hs he hnone
    have hcond : ¬ (startTs = "" ∨ endTs = "") := by
      rintro (h | h) <;> [exact hs h; exact he h]
    have hgt : jsDateGt (jsDateParse startTs) (jsDateParse endTs) = false := by
      rcases hnone with h | h
      · rw [h]; rfl
      · rw [h]
        cases jsDateParse startTs <;> rfl
    simp [handleExportArchiveByTimestampRange, hcond, hgt]
  · intro hnone
    unfold getBusinessesFromDateRangeStart
    rcases hnone with h | h
    · rw [h]
    · rw [h]
      cases jsDateParse (widenStart startTs) <;> rfl

/-- A concrete fragment of the host `Date` parser with two parseable
datetime-local values, the first later than the second. -/
def jsDateParseEx2 : String → Option Int :=
  fun s =>
    if s = "2024-01-02T00:00" then some 1704153600000
    else if s = "2024-01-01T00:00" then some 1704067200000
    else none

/-- Witness for the amended C4 at concrete inputs: an empty start is
rejected; a parseable start after a parseable end is rejected; the
unparseable "garbage" start proceeds past validation and the range query
fails at conversion. -/
theorem c4_export_validation_amended_witness :
    handleExportArchiveByTimestampRange jsDateParseEx2 "" "2024-01-01T00:00" =
      ExportValidation.emptyInputRejection
    ∧ handleExportArchiveByTimestampRange jsDateParseEx2 "2024-01-02T00:00" "2024-01-01T00:00" =
        ExportValidation.rangeRejection
    ∧ handleExportArchiveByTimestampRange jsDateParseEx2 "garbage" "2024-01-01T00:00" =
        ExportValidation.proceedToFetch
    ∧ getBusinessesFromDateRangeStart jsDateParseEx2 "garbage" "2024-01-01T00:00" =
        RangeQueryStep.conversionFailure := by
  refine ⟨?_, ?_, ?_, ?_⟩
  · exact (c4_export_validation_amended jsDateParseEx2 "" "2024-01-01T00:00").1 (Or.inl rfl)
  · exact (c4_export_validation_amended jsDateParseEx2 "2024-01-02T00:00" "2024-01-01T00:00").2.1
      1704153600000 1704067200000 (by decide) (by decide) (by decide) (by decide) (by decide)
  · exact (c4_export_validation_amended jsDateParseEx2 "garbage" "2024-01-01T00:00").2.2.1
      (by decide) (by decide) (Or.inl (by decide))
  · exact (c4_export_validation_amended jsDateParseEx2 "garbage" "2024-01-01T00:00").2.2.2
      (Or.inl (by decide))

/-! ### The widened bounds as a minute-resolution window -/

/-- The epoch-millisecond value of second 0, millisecond 0 of minute `m`
(what appending ":00.000Z" to the minute string denotes). -/
def minuteWindowStart (m : Nat) : Nat := 60000 * m

/-- The epoch-millisecond value of second 59, millisecond 999 of minute `m`
(what appending ":59.999Z" to the minute string denotes). -/
def minuteWindowEnd (m : Nat) : Nat := 60000 * m + 59999

/-- C10: for start/end strings containing no '.', the query widens the bounds
— ":00.000Z" is appended to the start and ":59.999Z" to the end — and, at
millisecond resolution, a record created at any offset `o` inside the final
minute (`o < 60000` milliseconds past the start of minute `m`) lies within
the inclusive window `[minuteWindowStart m, minuteWindowEnd m]`, so the whole
final minute is included. -/
theorem c10_range_widening (s e : String) (m o : Nat)
    (hs : hasDotChar s = false) (he : hasDotChar e = false) (ho : o < 60000) :
    widenStart s = s ++ ":00.000Z"
    ∧ widenEnd e = e ++ ":59.999Z"
    ∧ minuteWindowStart m ≤ 60000 * m + o
    ∧ 60000 * m + o ≤ minuteWindowEnd m := by
  refine ⟨?_, ?_, ?_, ?_⟩
  · simp [widenStart, hs]
  · simp [widenEnd, he]
  · unfold minuteWindowStart; omega
  · unfold minuteWindowEnd; omega

/-- Witness for C10 at a concrete minute-precision input and a creation time
1234 ms into the final minute. -/
theorem c10_range_widening_witness :
    widenStart "2024-01-01T10:30" = "2024-01-01T10:30" ++ ":00.000Z"
    ∧ widenEnd "2024-01-01T10:30" = "2024-01-01T10:30" ++ ":59.999Z"
    ∧ 60000 * 7 + 1234 ≤ minuteWindowEnd 7 := by
  have h := c10_range_widening "2024-01-01T10:30" "2024-01-01T10:30" 7 1234
    (by decide) (by decide) (by decide)
  exact ⟨h.1, h.2.1, h.2.2.2⟩
